import Mathlib

/-!
Verification development for the epp-go core: a shallow embedding of the
RFC 5734 framed transport (src/read_write.go), the content-based router
(src/mux.go), the result-code table (src/result.go), the session loop
(Session.run) and the envelope encoder (Encode / addNameSpaceAlias),
with theorems settling the specification's claims about them.

Bytes are modelled as `List Nat`; machine integers as `Nat`/`Int` with
explicit bounds where the Go code checks them.  Go functions that can
panic are modelled with an explicit `panicked` result constructor, so
that "returns neither a value nor an error" is expressible.
-/

/-! ## Framed transport (src/read_write.go) -/

/-- Big-endian 4-byte encoding of a 32-bit value, as written by
`binary.Write(conn, binary.BigEndian, uint32(totalSize))`. -/
def toBE4 (n : Nat) : List Nat :=
  [n / 2 ^ 24 % 256, n / 2 ^ 16 % 256, n / 2 ^ 8 % 256, n % 256]

/-- Big-endian decoding of a 4-byte header, as read by
`binary.Read(conn, binary.BigEndian, &totalSize)`. -/
def fromBE4 (bs : List Nat) : Nat :=
  match bs with
  | [a, b, c, d] => ((a * 256 + b) * 256 + c) * 256 + d
  | _ => 0

/-- Result of `ReadMessage` (src/read_write.go lines 27-53).  `connErr`
models the `connectionError` returned for a nil connection, `ioErr`
models errors surfaced from `binary.Read` / `io.ReadFull` (short read,
deadline), and `panicked` models a runtime panic, after which the
function returns neither a payload nor an error value. -/
inductive ReadResult where
  | ok (payload : List Nat)
  | connErr
  | ioErr
  | panicked
  deriving DecidableEq

/-- `ReadMessage` from src/read_write.go.  The connection is modelled as
`none` (nil) or `some s` where `s` is the byte stream the connection
will deliver.  The code decodes the 4-byte big-endian total size, then
computes `contentSize := int(totalSize) - 4` and allocates
`make([]byte, contentSize)`: for `totalSize < 4` the length is negative
and the allocation panics. -/
def ReadMessage (conn : Option (List Nat)) : ReadResult :=
  match conn with
  | none => ReadResult.connErr
  | some s =>
    if s.length < 4 then ReadResult.ioErr
    else
      let totalSize := fromBE4 (s.take 4)
      if totalSize < 4 then ReadResult.panicked
      else
        let contentSize := totalSize - 4
        let rest := s.drop 4
        if rest.length < contentSize then ReadResult.ioErr
        else ReadResult.ok (rest.take contentSize)

/-- `WriteMessage` from src/read_write.go lines 56-81: computes
`totalSize = len(data) + 4`, rejects `totalSize > math.MaxUint32` with
`contentIsTooLarge` (modelled as `none`), otherwise emits the 4-byte
big-endian header followed by the payload. -/
def WriteMessage (data : List Nat) : Option (List Nat) :=
  let contentSize := data.length
  let totalSize := contentSize + 4
  if totalSize > 2 ^ 32 - 1 then none
  else some (toBE4 totalSize ++ data)

theorem fromBE4_toBE4 (n : Nat) (h : n ≤ 2 ^ 32 - 1) : fromBE4 (toBE4 n) = n := by
  simp only [toBE4, fromBE4]
  have h32 : n ≤ 4294967295 := by norm_num at h; omega
  omega

/-- C1.  Framing round-trip: for every byte string `b` with
`|b| ≤ 2^32 - 5`, `WriteMessage` produces a frame from which
`ReadMessage` returns exactly `b` — the 4-byte big-endian length
header is stripped and the payload returned unmodified. -/
theorem framing_roundtrip (b : List Nat) (h : b.length ≤ 2 ^ 32 - 5) :
    ∃ frame, WriteMessage b = some frame ∧ ReadMessage (some frame) = ReadResult.ok b := by
  refine ⟨toBE4 (b.length + 4) ++ b, ?_, ?_⟩
  · simp only [WriteMessage]
    rw [if_neg]
    norm_num at h ⊢
    omega
  · have hlen : (toBE4 (b.length + 4)).length = 4 := by simp [toBE4]
    have htake : (toBE4 (b.length + 4) ++ b).take 4 = toBE4 (b.length + 4) := by
      rw [List.take_append_eq_append_take, hlen]
      simp [hlen]
    have hdrop : (toBE4 (b.length + 4) ++ b).drop 4 = b := by
      rw [List.drop_append_eq_append_drop, hlen]
      simp [hlen]
    have hval : fromBE4 (toBE4 (b.length + 4)) = b.length + 4 := by
      apply fromBE4_toBE4
      norm_num at h ⊢
      omega
    simp only [ReadMessage, htake, hdrop, hval]
    rw [if_neg (by simp [hlen]), if_neg (by omega), if_neg (by omega)]
    simp

/-- Witness for C1 at a concrete byte string. -/
theorem framing_roundtrip_witness :
    ∃ frame, WriteMessage [1, 2, 3] = some frame ∧
      ReadMessage (some frame) = ReadResult.ok [1, 2, 3] :=
  framing_roundtrip [1, 2, 3] (by norm_num)

/-- C3.  `ReadMessage` returns the connection error for a nil
connection; but for a decoded total length `T < 4` it does not return
a protocol error value: `contentSize = int(T) - 4` is negative and
`make([]byte, contentSize)` panics, so the function returns neither a
payload nor an error.  Evaluated here at the failing input — a header
declaring total length 3. -/
theorem readMessage_short_total_length :
    ReadMessage none = ReadResult.connErr ∧
    ReadMessage (some [0, 0, 0, 3]) = ReadResult.panicked := by
  constructor
  · rfl
  · rfl

/-! ## XML element trees (aqwari.net/xml/xmltree `Element`, as used by
src/mux.go and src/read_write.go) -/

mutual

/-- An XML element: expanded name (namespace URI and local name),
attributes, child elements.  Mirrors `xmltree.Element` as the Go code
uses it (`Name.Space`, `Name.Local`, `SetAttr`, `Children`). -/
inductive XElem where
  | mk (space : String) (loc : String) (attrs : List (String × String)) (children : XElems)

/-- A list of child elements (mutual with `XElem`). -/
inductive XElems where
  | nil
  | cons (e : XElem) (es : XElems)

end

/-- Namespace URI of an element (`Name.Space`). -/
def XElem.space : XElem → String
  | .mk s _ _ _ => s

/-- Local name of an element (`Name.Local`). -/
def XElem.loc : XElem → String
  | .mk _ l _ _ => l

/-- Attribute list of an element. -/
def XElem.attrs : XElem → List (String × String)
  | .mk _ _ a _ => a

/-- Child elements of an element (`Children`). -/
def XElem.children : XElem → XElems
  | .mk _ _ _ c => c

/-- Number of children (`len(el.Children)`). -/
def XElems.length : XElems → Nat
  | .nil => 0
  | .cons _ es => es.length + 1

/-- Indexing into a child list (`el.Children[i]`). -/
def XElems.getIdx : XElems → Nat → Option XElem
  | .nil, _ => none
  | .cons e _, 0 => some e
  | .cons _ es, n + 1 => es.getIdx n

/-- Build an `XElems` from a Lean list. -/
def XElems.ofList : List XElem → XElems
  | [] => .nil
  | e :: l => .cons e (ofList l)

/-- The element at a position (a list of child indices) in a tree. -/
def getAt : List Nat → XElem → Option XElem
  | [], e => some e
  | i :: p, e =>
    match e.children.getIdx i with
    | none => none
    | some c => getAt p c

/-! ## Router (src/mux.go) -/

/-- `nsEPP` from src/mux.go. -/
def nsEPP : String := "urn:ietf:params:xml:ns:epp-1.0"

/-- The `Mux` state: the handler table and the namespace-alias map
(src/mux.go lines 24-27).  Handlers are modelled by opaque numeric
identifiers; invoking a handler is recorded rather than executed. -/
structure Mux where
  handlers : List (String × Nat)
  namespaceAliases : List (String × String)

/-- The routing errors produced by `Mux.buildPath` / `Mux.Handle`:
`errors.New("missing <epp> tag")`, `errors.New("<epp> should contain
one element")` and `errors.Errorf("no handler for %s", path)`. -/
inductive MuxError where
  | missingEppTag
  | malformedEpp
  | noHandler (path : String)
  deriving DecidableEq

/-- Result of the classifying loop over the command's children in
`Mux.buildPath` (src/mux.go lines 97-123): `ok none` when every child
was skipped (or there were none), `ok (some suffix)` for the path
components appended for the first classifying child, `panicked` when
the verb element has no child and `child.Children[0]` indexes out of
bounds. -/
inductive ClassifyResult where
  | ok (suffix : Option String)
  | panicked
  deriving DecidableEq

/-- The `for _, child := range el.Children` loop of `Mux.buildPath`:
skip `extension` and `clTRID`; for the first other child, `login`,
`logout` and `poll` route as themselves, anything else routes as
`<name>/<alias-or-namespace-of-first-grandchild>`; the loop breaks
after the first classifying child. -/
def firstClassify (m : Mux) : XElems → ClassifyResult
  | .nil => .ok none
  | .cons child rest =>
    let name := child.loc
    if name = "extension" ∨ name = "clTRID" then firstClassify m rest
    else if name = "login" ∨ name = "logout" ∨ name = "poll" then .ok (some name)
    else
      match child.children with
      | .nil => .panicked
      | .cons g _ =>
        let ns := g.space
        .ok (some (name ++ "/" ++ ((m.namespaceAliases.lookup ns).getD ns)))

/-- Result of path derivation, with `panicked` for the out-of-bounds
index of src/mux.go line 115. -/
inductive PathResult where
  | ok (path : String)
  | err (e : MuxError)
  | panicked
  deriving DecidableEq

/-- `Mux.buildPath` from src/mux.go lines 78-126. -/
def Mux.buildPath (m : Mux) (root : XElem) : PathResult :=
  if root.space ≠ nsEPP ∨ root.loc ≠ "epp" then .err .missingEppTag
  else
    match root.children with
    | XElems.cons el XElems.nil =>
      if el.loc ≠ "command" then .ok el.loc
      else
        match firstClassify m el.children with
        | .panicked => .panicked
        | .ok none => .ok "command"
        | .ok (some suffix) => .ok ("command/" ++ suffix)
    | _ => .err .malformedEpp

/-- Result of `Mux.Handle`: either the handler registered at the
derived path is invoked with the session and the raw payload, or an
error is returned, or the call panics (returning neither). -/
inductive HandleResult where
  | invoked (handlerId : Nat) (sess : Nat) (payload : List Nat)
  | err (e : MuxError)
  | panicked
  deriving DecidableEq

/-- `Mux.Handle` from src/mux.go lines 58-76, applied to the parsed
document `root` of the raw payload `d` (the `xmltree.Parse` step is
external; claims about routing are stated on parsed documents). -/
def Mux.Handle (m : Mux) (s : Nat) (d : List Nat) (root : XElem) : HandleResult :=
  match m.buildPath root with
  | .panicked => .panicked
  | .err e => .err e
  | .ok path =>
    match m.handlers.lookup path with
    | none => .err (.noHandler path)
    | some h => .invoked h s d

/-- C5.  `Mux.Handle` fails without invoking any handler: with the
missing-epp-tag error whenever the root's expanded name is not
`{urn:ietf:params:xml:ns:epp-1.0}epp`; with the malformed-epp error
whenever the epp root does not have exactly one child element; and
with the no-handler error whenever path derivation succeeds but no
handler is registered under the derived path. -/
theorem mux_handle_errors :
    (∀ (m : Mux) (s : Nat) (d : List Nat) (root : XElem),
      (root.space ≠ nsEPP ∨ root.loc ≠ "epp") →
      Mux.Handle m s d root = HandleResult.err MuxError.missingEppTag) ∧
    (∀ (m : Mux) (s : Nat) (d : List Nat) (ra : List (String × String)) (cs : XElems),
      cs.length ≠ 1 →
      Mux.Handle m s d (XElem.mk nsEPP "epp" ra cs) = HandleResult.err MuxError.malformedEpp) ∧
    (∀ (m : Mux) (s : Nat) (d : List Nat) (root : XElem) (path : String),
      m.buildPath root = PathResult.ok path →
      m.handlers.lookup path = none →
      Mux.Handle m s d root = HandleResult.err (MuxError.noHandler path)) := by
  refine ⟨?_, ?_, ?_⟩
  · intro m s d root hname
    simp [Mux.Handle, Mux.buildPath, if_pos hname]
  · intro m s d ra cs hlen
    have hroot : ¬((XElem.mk nsEPP "epp" ra cs).space ≠ nsEPP ∨
        (XElem.mk nsEPP "epp" ra cs).loc ≠ "epp") := by
      simp [XElem.space, XElem.loc]
    match cs, hlen with
    | XElems.nil, _ => simp [Mux.Handle, Mux.buildPath, if_neg hroot, XElem.children]
    | XElems.cons e XElems.nil, hlen => simp [XElems.length] at hlen
    | XElems.cons e (XElems.cons e' es), _ =>
      simp [Mux.Handle, Mux.buildPath, if_neg hroot, XElem.children]
  · intro m s d root path hpath hlook
    simp [Mux.Handle, hpath, hlook]

/-- Witness for C5: the three failure modes at concrete documents. -/
theorem mux_handle_errors_witness :
    Mux.Handle ⟨[], []⟩ 0 [] (XElem.mk "" "hello" [] XElems.nil) =
      HandleResult.err MuxError.missingEppTag ∧
    Mux.Handle ⟨[], []⟩ 0 [] (XElem.mk nsEPP "epp" [] XElems.nil) =
      HandleResult.err MuxError.malformedEpp ∧
    Mux.Handle ⟨[], []⟩ 0 []
      (XElem.mk nsEPP "epp" [] (XElems.cons (XElem.mk "" "hello" [] XElems.nil) XElems.nil)) =
      HandleResult.err (MuxError.noHandler "hello") := by
  refine ⟨?_, ?_, ?_⟩
  · exact mux_handle_errors.1 ⟨[], []⟩ 0 [] _ (by simp [XElem.space, nsEPP])
  · exact mux_handle_errors.2.1 ⟨[], []⟩ 0 [] [] XElems.nil (by simp [XElems.length])
  · exact mux_handle_errors.2.2 ⟨[], []⟩ 0 [] _ "hello" rfl rfl

/-- Children whose local name is `extension` or `clTRID` are skipped by
the classifying loop: a prefix of such children does not change the
derived suffix. -/
theorem firstClassify_skips (m : Mux) (skips l : List XElem)
    (h : ∀ e ∈ skips, e.loc = "extension" ∨ e.loc = "clTRID") :
    firstClassify m (XElems.ofList (skips ++ l)) = firstClassify m (XElems.ofList l) := by
  induction skips with
  | nil => rfl
  | cons e rest ih =>
    have he : e.loc = "extension" ∨ e.loc = "clTRID" := h e (by simp)
    have hr : ∀ x ∈ rest, x.loc = "extension" ∨ x.loc = "clTRID" :=
      fun x hx => h x (by simp [hx])
    show firstClassify m (XElems.cons e (XElems.ofList (rest ++ l))) = _
    rw [show firstClassify m (XElems.cons e (XElems.ofList (rest ++ l))) =
        firstClassify m (XElems.ofList (rest ++ l)) from by
      simp only [firstClassify]
      rw [if_pos he]]
    exact ih hr

/-- C4.  For an EPP document whose epp root has a single `command`
child, `Mux.Handle` skips `extension` and `clTRID` children and
examines only the first remaining child: for `login`, `logout` or
`poll` the dispatch key is `command/<name>`; otherwise it is
`command/<verb>/<alias>` where the alias is the router's registered
alias for the namespace URI of the verb element's first child, or that
URI itself when no alias is registered; the handler registered under
that key is invoked with the session and the raw payload. -/
theorem mux_dispatch_key :
    (∀ (m : Mux) (s h : Nat) (d : List Nat) (ra ca cla : List (String × String))
        (csp clsp cl : String) (clch : XElems) (skips rest : List XElem),
      (∀ e ∈ skips, e.loc = "extension" ∨ e.loc = "clTRID") →
      (cl = "login" ∨ cl = "logout" ∨ cl = "poll") →
      m.handlers.lookup ("command/" ++ cl) = some h →
      Mux.Handle m s d (XElem.mk nsEPP "epp" ra
          (XElems.cons
            (XElem.mk csp "command" ca
              (XElems.ofList (skips ++ XElem.mk clsp cl cla clch :: rest)))
            XElems.nil)) =
        HandleResult.invoked h s d) ∧
    (∀ (m : Mux) (s h : Nat) (d : List Nat) (ra ca cla gat : List (String × String))
        (csp clsp cl gsp gl : String) (gch gs : XElems) (skips rest : List XElem),
      (∀ e ∈ skips, e.loc = "extension" ∨ e.loc = "clTRID") →
      cl ≠ "extension" → cl ≠ "clTRID" →
      cl ≠ "login" → cl ≠ "logout" → cl ≠ "poll" →
      m.handlers.lookup
          ("command/" ++ (cl ++ "/" ++ ((m.namespaceAliases.lookup gsp).getD gsp))) =
        some h →
      Mux.Handle m s d (XElem.mk nsEPP "epp" ra
          (XElems.cons
            (XElem.mk csp "command" ca
              (XElems.ofList (skips ++
                XElem.mk clsp cl cla (XElems.cons (XElem.mk gsp gl gat gch) gs) :: rest)))
            XElems.nil)) =
        HandleResult.invoked h s d) := by
  constructor
  · intro m s h d ra ca cla csp clsp cl clch skips rest hsk htrio hlk
    have hskip : ¬(cl = "extension" ∨ cl = "clTRID") := by
      rcases htrio with h1 | h1 | h1 <;> simp [h1]
    have hfc : firstClassify m
        (XElems.ofList (skips ++ XElem.mk clsp cl cla clch :: rest)) =
        ClassifyResult.ok (some cl) := by
      rw [firstClassify_skips m skips (XElem.mk clsp cl cla clch :: rest) hsk]
      show firstClassify m
        (XElems.cons (XElem.mk clsp cl cla clch) (XElems.ofList rest)) = _
      simp only [firstClassify, XElem.loc]
      rw [if_neg hskip, if_pos htrio]
    simp [Mux.Handle, Mux.buildPath, XElem.space, XElem.loc, XElem.children, nsEPP, hfc, hlk]
  · intro m s h d ra ca cla gat csp clsp cl gsp gl gch gs skips rest hsk hext hcl hlog hlou
      hpo hlk
    have hskip : ¬(cl = "extension" ∨ cl = "clTRID") := by
      intro hor; exact hor.elim hext hcl
    have htrio : ¬(cl = "login" ∨ cl = "logout" ∨ cl = "poll") := by
      intro hor; exact hor.elim hlog (fun h2 => h2.elim hlou hpo)
    have hfc : firstClassify m
        (XElems.ofList (skips ++
          XElem.mk clsp cl cla (XElems.cons (XElem.mk gsp gl gat gch) gs) :: rest)) =
        ClassifyResult.ok
          (some (cl ++ "/" ++ ((m.namespaceAliases.lookup gsp).getD gsp))) := by
      rw [firstClassify_skips m skips
        (XElem.mk clsp cl cla (XElems.cons (XElem.mk gsp gl gat gch) gs) :: rest) hsk]
      show firstClassify m
        (XElems.cons (XElem.mk clsp cl cla (XElems.cons (XElem.mk gsp gl gat gch) gs))
          (XElems.ofList rest)) = _
      simp only [firstClassify, XElem.loc, XElem.children, XElem.space]
      rw [if_neg hskip, if_neg htrio]
    simp [Mux.Handle, Mux.buildPath, XElem.space, XElem.loc, XElem.children, nsEPP, hfc, hlk]

/-- A concrete router for the witnesses: handlers for `command/login`
and `command/check/domain`, a `domain` namespace alias. -/
def muxW : Mux :=
  { handlers := [("command/login", 7), ("command/check/domain", 9)]
    namespaceAliases := [("urn:ietf:params:xml:ns:domain-1.0", "domain")] }

/-- A `<clTRID>` child, skipped by routing. -/
def clTRIDElem : XElem := XElem.mk "" "clTRID" [] XElems.nil

/-- A `<login>` command child. -/
def loginElem : XElem := XElem.mk "" "login" [] XElems.nil

/-- A `<check>` verb whose first child is in the domain namespace. -/
def checkDomainElem : XElem :=
  XElem.mk "" "check" []
    (XElems.cons (XElem.mk "urn:ietf:params:xml:ns:domain-1.0" "check" [] XElems.nil)
      XElems.nil)

/-- An epp/command document with the given command children. -/
def commandDoc (cs : List XElem) : XElem :=
  XElem.mk nsEPP "epp" []
    (XElems.cons (XElem.mk "" "command" [] (XElems.ofList cs)) XElems.nil)

/-- Witness for C4: a login command routes to the `command/login`
handler, and a check command with a domain-namespace object routes to
the `command/check/domain` handler. -/
theorem mux_dispatch_key_witness :
    Mux.Handle muxW 3 [5] (commandDoc ([clTRIDElem] ++ loginElem :: [])) =
      HandleResult.invoked 7 3 [5] ∧
    Mux.Handle muxW 3 [5] (commandDoc ([clTRIDElem] ++ checkDomainElem :: [])) =
      HandleResult.invoked 9 3 [5] := by
  constructor
  · exact mux_dispatch_key.1 muxW 3 7 [5] [] [] [] "" "" "login" XElems.nil [clTRIDElem] []
      (by intro e he; simp at he; subst he; right; rfl)
      (by left; rfl) rfl
  · exact mux_dispatch_key.2 muxW 3 9 [5] [] [] [] [] "" "" "check"
      "urn:ietf:params:xml:ns:domain-1.0" "check" XElems.nil XElems.nil [clTRIDElem] []
      (by intro e he; simp at he; subst he; right; rfl)
      (by decide) (by decide) (by decide) (by decide) (by decide)
      rfl

/-- When path derivation succeeds, `Mux.Handle` cannot panic: it either
invokes the handler or returns the no-handler error. -/
theorem handle_ne_panicked (m : Mux) (s : Nat) (d : List Nat) (root : XElem) (path : String)
    (h : m.buildPath root = PathResult.ok path) :
    Mux.Handle m s d root ≠ HandleResult.panicked := by
  simp only [Mux.Handle, h]
  cases m.handlers.lookup path <;> simp

/-- C10.  `Mux.Handle` is total only under the precondition that the
first classifying child of a command (local name not in {extension,
clTRID, login, logout, poll}) has at least one child element: under
that precondition no panic is possible, but `buildPath` unconditionally
indexes `child.Children[0]`, so for the well-formed command document
`<epp><command><check/></command></epp>` the index is out of bounds and
`Handle` returns neither a response nor an error. -/
theorem mux_empty_verb_panics :
    (∀ (m : Mux) (s : Nat) (d : List Nat) (ra ca cla : List (String × String))
        (csp clsp cl : String) (clch : XElems) (skips rest : List XElem),
      (∀ e ∈ skips, e.loc = "extension" ∨ e.loc = "clTRID") →
      cl ≠ "extension" → cl ≠ "clTRID" →
      (cl = "login" ∨ cl = "logout" ∨ cl = "poll" ∨ clch ≠ XElems.nil) →
      Mux.Handle m s d (XElem.mk nsEPP "epp" ra
          (XElems.cons
            (XElem.mk csp "command" ca
              (XElems.ofList (skips ++ XElem.mk clsp cl cla clch :: rest)))
            XElems.nil)) ≠
        HandleResult.panicked) ∧
    Mux.Handle (Mux.mk [] []) 0 []
      (XElem.mk nsEPP "epp" []
        (XElems.cons
          (XElem.mk "" "command" []
            (XElems.cons (XElem.mk "" "check" [] XElems.nil) XElems.nil))
          XElems.nil)) =
      HandleResult.panicked := by
  constructor
  · intro m s d ra ca cla csp clsp cl clch skips rest hsk hext hcl hpre
    have hskip : ¬(cl = "extension" ∨ cl = "clTRID") := by
      intro hor; exact hor.elim hext hcl
    have hstep : firstClassify m
        (XElems.ofList (skips ++ XElem.mk clsp cl cla clch :: rest)) =
        firstClassify m (XElems.cons (XElem.mk clsp cl cla clch) (XElems.ofList rest)) := by
      rw [firstClassify_skips m skips (XElem.mk clsp cl cla clch :: rest) hsk]
      rfl
    by_cases htrio : cl = "login" ∨ cl = "logout" ∨ cl = "poll"
    · have hfc : firstClassify m
          (XElems.ofList (skips ++ XElem.mk clsp cl cla clch :: rest)) =
          ClassifyResult.ok (some cl) := by
        rw [hstep]
        simp only [firstClassify, XElem.loc]
        rw [if_neg hskip, if_pos htrio]
      exact handle_ne_panicked m s d _ ("command/" ++ cl)
        (by simp [Mux.buildPath, XElem.space, XElem.loc, XElem.children, nsEPP, hfc])
    · have hch : clch ≠ XElems.nil := by
        rcases hpre with h1 | h1 | h1 | h1
        · exact absurd (Or.inl h1) htrio
        · exact absurd (Or.inr (Or.inl h1)) htrio
        · exact absurd (Or.inr (Or.inr h1)) htrio
        · exact h1
      match clch, hch with
      | XElems.cons (XElem.mk gsp gl gat gch) gs, _ =>
        have hfc : firstClassify m
            (XElems.ofList (skips ++
              XElem.mk clsp cl cla (XElems.cons (XElem.mk gsp gl gat gch) gs) :: rest)) =
            ClassifyResult.ok
              (some (cl ++ "/" ++ ((m.namespaceAliases.lookup gsp).getD gsp))) := by
          rw [firstClassify_skips m skips
            (XElem.mk clsp cl cla (XElems.cons (XElem.mk gsp gl gat gch) gs) :: rest) hsk]
          simp only [firstClassify, XElem.loc, XElem.children, XElem.space]
          rw [if_neg hskip, if_neg htrio]
        exact handle_ne_panicked m s d _
          ("command/" ++ (cl ++ "/" ++ ((m.namespaceAliases.lookup gsp).getD gsp)))
          (by simp [Mux.buildPath, XElem.space, XElem.loc, XElem.children, nsEPP, hfc])
  · rfl

/-- Witness for C10's totality direction: a login command with no
skipped children does not panic. -/
theorem mux_empty_verb_panics_witness :
    Mux.Handle muxW 0 [] (XElem.mk nsEPP "epp" []
        (XElems.cons
          (XElem.mk "" "command" []
            (XElems.ofList ([] ++ XElem.mk "" "login" [] XElems.nil :: [])))
          XElems.nil)) ≠
      HandleResult.panicked :=
  mux_empty_verb_panics.1 muxW 0 [] [] [] [] "" "" "login" XElems.nil [] []
    (by intro e he; cases he) (by decide) (by decide) (Or.inl rfl)

/-! ## Result codes (src/result.go) -/

/-- EPP result codes, RFC 5730 section 3 (src/result.go lines 8-48). -/
abbrev ResultCode := Int

def EppOk : ResultCode := 1000
def EppOkPending : ResultCode := 1001
def EppOkNoMessages : ResultCode := 1300
def EppOkMessages : ResultCode := 1301
def EppOkBye : ResultCode := 1500
def EppUnknownCommand : ResultCode := 2000
def EppSyntaxError : ResultCode := 2001
def EppUseError : ResultCode := 2002
def EppMissingParam : ResultCode := 2003
def EppParamRangeError : ResultCode := 2004
def EppParamSyntaxError : ResultCode := 2005
def EppUnimplementedVersion : ResultCode := 2100
def EppUnimplementedCommand : ResultCode := 2101
def EppUnimplementedOption : ResultCode := 2102
def EppUnimplementedExtension : ResultCode := 2103
def EppBillingFailure : ResultCode := 2104
def EppNotRenewable : ResultCode := 2105
def EppNotTransferrable : ResultCode := 2106
def EppAuthenticationError : ResultCode := 2200
def EppAuthorisationError : ResultCode := 2201
def EppInvalidAuthInfo : ResultCode := 2202
def EppObjectPendingTransfer : ResultCode := 2300
def EppObjectNotPendingTransfer : ResultCode := 2301
def EppObjectExists : ResultCode := 2302
def EppObjectDoesNotExist : ResultCode := 2303
def EppStatusProhibitsOp : ResultCode := 2304
def EppAssocProhibitsOp : ResultCode := 2305
def EppParamPolicyError : ResultCode := 2306
def EppUnimplementedObjectService : ResultCode := 2307
def EppDataMgmtPolicyViolation : ResultCode := 2308
def EppCommandFailed : ResultCode := 2400
def EppCommandFailedBye : ResultCode := 2500
def EppAuthFailedBye : ResultCode := 2501
def EppSessionLimitExceededBye : ResultCode := 2502

/-- `ResultCode.Code` from src/result.go: the integer value. -/
def ResultCode.Code (rs : ResultCode) : Int := rs

/-- `ResultCode.Message` from src/result.go lines 57-130: the per-code
message switch, with the formatted default case. -/
def ResultCode.Message (rs : ResultCode) : String :=
  if rs = EppOk then "Command completed successfully"
  else if rs = EppOkPending then "Command completed successfully; action pending"
  else if rs = EppOkNoMessages then "Command completed successfully; no messages"
  else if rs = EppOkMessages then "Command completed successfully; ack to dequeue"
  else if rs = EppOkBye then "Command completed successfully; ending session"
  else if rs = EppUnknownCommand then "Unknown command"
  else if rs = EppSyntaxError then "Command syntax error"
  else if rs = EppUseError then "Command use error"
  else if rs = EppMissingParam then "Required parameter missing"
  else if rs = EppParamRangeError then "Parameter value range error"
  else if rs = EppParamSyntaxError then "Parameter value syntax error"
  else if rs = EppUnimplementedVersion then "Unimplemented protocol version"
  else if rs = EppUnimplementedCommand then "Unimplemented command"
  else if rs = EppUnimplementedOption then "Unimplemented option"
  else if rs = EppUnimplementedExtension then "Unimplemented extension"
  else if rs = EppBillingFailure then "Billing failure"
  else if rs = EppNotRenewable then "Object is not eligible for renewal"
  else if rs = EppNotTransferrable then "Object is not eligible for transfer"
  else if rs = EppAuthenticationError then "Authentication error"
  else if rs = EppAuthorisationError then "Authorization error"
  else if rs = EppInvalidAuthInfo then "Invalid authorization information"
  else if rs = EppObjectPendingTransfer then "Object pending transfer"
  else if rs = EppObjectNotPendingTransfer then "Object not pending transfer"
  else if rs = EppObjectExists then "Object exists"
  else if rs = EppObjectDoesNotExist then "Object does not exist"
  else if rs = EppStatusProhibitsOp then "Object status prohibits operation"
  else if rs = EppAssocProhibitsOp then "Object association prohibits operation"
  else if rs = EppParamPolicyError then "Parameter value policy error"
  else if rs = EppUnimplementedObjectService then "Unimplemented object service"
  else if rs = EppDataMgmtPolicyViolation then "Data management policy violation"
  else if rs = EppCommandFailed then "Command failed"
  else if rs = EppCommandFailedBye then "Command failed; server closing connection"
  else if rs = EppAuthFailedBye then "Authentication error; server closing connection"
  else if rs = EppSessionLimitExceededBye then
    "Session limit exceeded; server closing connection"
  else "Code was " ++ toString rs

/-- `ResultCode.IsBye` from src/result.go lines 132-143: true exactly
for the connection-management codes that require disconnection. -/
def ResultCode.IsBye (rs : ResultCode) : Bool :=
  rs == EppOkBye || rs == EppCommandFailedBye || rs == EppAuthFailedBye ||
    rs == EppSessionLimitExceededBye

/-- One entry of `types.Response.Result`, with the fields populated by
`CreateErrorResponse` (src/result.go lines 146-158). -/
structure EppResult where
  Code : Int
  Message : String
  Reason : String
  deriving DecidableEq

/-- The subset of `types.Response` populated by `CreateErrorResponse`. -/
structure Response where
  Result : List EppResult
  deriving DecidableEq

/-- `CreateErrorResponse` from src/result.go lines 146-158. -/
def CreateErrorResponse (code : ResultCode) (reason : String) : Response :=
  { Result := [{ Code := code.Code, Message := code.Message, Reason := reason }] }

/-! ## Session engine (`Session.run`, src/unnamed/part_001 lines 92-181)

One iteration of the request loop is modelled from the point where
`ReadMessage` has returned a message: the loop runs every `OnCommands`
observer, then validates the message, then calls the handler, then
validates the response, then writes it; any error returns from `run`
(the connection is closed by the deferred `s.conn.Close()`), while a
successful write resets the idle timer and continues the loop.  The
message type is a parameter: the session treats payloads opaquely. -/

/-- Events of one loop iteration, in execution order. -/
inductive SessEvent where
  | observerCall (i : Nat)
  | validateIn
  | handlerCall
  | validateOut
  | send
  deriving DecidableEq

/-- How the iteration ends: `closed*` when `run` returns the error of
the corresponding stage (terminating the session), `looped resp` when
the response was written and the loop continues with the next read. -/
inductive SessOutcome (Msg : Type) where
  | closedValidateIn
  | closedHandler (e : String)
  | closedValidateOut
  | closedWrite
  | looped (resp : Msg)

/-- Whether the iteration terminated the session. -/
def SessOutcome.isClosed {Msg : Type} : SessOutcome Msg → Bool
  | .looped _ => false
  | _ => true

/-- The per-session configuration used by the loop body
(`SessionConfig` fields `OnCommands`, `Validator`, `Handler`, plus the
outcome of `WriteMessage` on the connection). -/
structure SessionCfg (Msg : Type) where
  numObservers : Nat
  validator : Option (Msg → Bool)
  handler : Msg → Except String Msg
  writeOk : Msg → Bool

/-- `Session.validate` (src/unnamed/part_001 lines 194-210): a nil
validator accepts everything. -/
def sessionValidate {Msg : Type} (v : Option (Msg → Bool)) (data : Msg) : Bool :=
  match v with
  | none => true
  | some f => f data

/-- One iteration of the `Session.run` loop after a message arrives,
returning the trace of events and the outcome.  Mirrors the statement
order of src/unnamed/part_001 lines 156-180: observers first, then
inbound validation, handler, outbound validation, write. -/
def sessionIteration {Msg : Type} (cfg : SessionCfg Msg) (msg : Msg) :
    List SessEvent × SessOutcome Msg :=
  let obs := (List.range cfg.numObservers).map SessEvent.observerCall
  if sessionValidate cfg.validator msg = false then
    (obs ++ [SessEvent.validateIn], SessOutcome.closedValidateIn)
  else
    match cfg.handler msg with
    | Except.error e =>
      (obs ++ [SessEvent.validateIn, SessEvent.handlerCall], SessOutcome.closedHandler e)
    | Except.ok resp =>
      if sessionValidate cfg.validator resp = false then
        (obs ++ [SessEvent.validateIn, SessEvent.handlerCall, SessEvent.validateOut],
          SessOutcome.closedValidateOut)
      else if cfg.writeOk resp = false then
        (obs ++ [SessEvent.validateIn, SessEvent.handlerCall, SessEvent.validateOut,
            SessEvent.send],
          SessOutcome.closedWrite)
      else
        (obs ++ [SessEvent.validateIn, SessEvent.handlerCall, SessEvent.validateOut,
            SessEvent.send],
          SessOutcome.looped resp)

/-- A session configuration whose validator rejects every message, with
one registered per-command observer. -/
def cfgReject : SessionCfg (List Nat) :=
  { numObservers := 1
    validator := some (fun _ => false)
    handler := fun m => Except.ok m
    writeOk := fun _ => true }

/-- C2 counterexample.  With a validator installed that fails on the
received bytes, the session does close with the error — but the
per-command observer HAS been invoked for that message: `Session.run`
runs the `OnCommands` observers before inbound validation, so the
claim that neither observer nor handler is invoked is false. -/
theorem session_observer_runs_cex :
    sessionIteration cfgReject [] =
      ([SessEvent.observerCall 0, SessEvent.validateIn], SessOutcome.closedValidateIn) ∧
    SessEvent.observerCall 0 ∈ (sessionIteration cfgReject []).1 := by
  constructor
  · rfl
  · decide

/-- C2 (amended).  When a validator is installed and fails on the
received bytes, the session closes with the error propagated and the
handler is not invoked for that message — but every registered
per-command observer has already been invoked, before inbound
validation (observers run first in `Session.run`). -/
theorem session_validate_in_closes {Msg : Type} (cfg : SessionCfg Msg) (msg : Msg)
    (v : Msg → Bool) (hv : cfg.validator = some v) (hfail : v msg = false) :
    sessionIteration cfg msg =
      ((List.range cfg.numObservers).map SessEvent.observerCall ++ [SessEvent.validateIn],
        SessOutcome.closedValidateIn) ∧
    SessEvent.handlerCall ∉ (sessionIteration cfg msg).1 := by
  have hval : sessionValidate cfg.validator msg = false := by
    rw [hv]; exact hfail
  constructor
  · simp [sessionIteration, hval]
  · simp [sessionIteration, hval, List.mem_append, List.mem_map]

/-- Witness for the amended C2 at the concrete rejecting session. -/
theorem session_validate_in_closes_witness :
    sessionIteration cfgReject [] =
      ((List.range cfgReject.numObservers).map SessEvent.observerCall ++
          [SessEvent.validateIn],
        SessOutcome.closedValidateIn) ∧
    SessEvent.handlerCall ∉ (sessionIteration cfgReject []).1 :=
  session_validate_in_closes cfgReject [] (fun _ => false) rfl rfl

/-- A session whose handler answers every message with the EPP 1500
("ending session") error response, validator absent, writes succeeding. -/
def cfgBye : SessionCfg Response :=
  { numObservers := 0
    validator := none
    handler := fun _ => Except.ok (CreateErrorResponse EppOkBye "bye")
    writeOk := fun _ => true }

/-- C6 counterexample.  1500 is a Bye code (`ResultCode.IsBye` is
true), the handler's response carries code 1500, the response is fully
written (`send` is in the trace) — yet the iteration outcome is
`looped`, not closed: `Session.run` never consults result codes, so
the server does not close the session after sending a Bye response. -/
theorem session_bye_continue_cex :
    ResultCode.IsBye EppOkBye = true ∧
    (CreateErrorResponse EppOkBye "bye").Result.map EppResult.Code = [1500] ∧
    SessEvent.send ∈ (sessionIteration cfgBye (CreateErrorResponse EppOk "req")).1 ∧
    (sessionIteration cfgBye (CreateErrorResponse EppOk "req")).2 =
      SessOutcome.looped (CreateErrorResponse EppOkBye "bye") ∧
    (sessionIteration cfgBye (CreateErrorResponse EppOk "req")).2.isClosed = false := by
  refine ⟨rfl, rfl, ?_, rfl, rfl⟩
  decide

/-- C6 (amended).  `ResultCode.IsBye` returns true exactly for 1500,
2500, 2501 and 2502, but the session loop does not inspect result
codes: whenever the handler succeeds, both validations pass and the
write succeeds, the iteration ends with `looped` — the session
continues with the next read — whatever response was sent, including
one carrying a Bye code. -/
theorem session_send_success_loops {Msg : Type} (cfg : SessionCfg Msg) (msg resp : Msg)
    (hh : cfg.handler msg = Except.ok resp)
    (hin : sessionValidate cfg.validator msg = true)
    (hout : sessionValidate cfg.validator resp = true)
    (hw : cfg.writeOk resp = true) :
    (sessionIteration cfg msg).2 = SessOutcome.looped resp ∧
    (sessionIteration cfg msg).2.isClosed = false ∧
    (∀ rs : ResultCode,
      rs.IsBye = true ↔ (rs = 1500 ∨ rs = 2500 ∨ rs = 2501 ∨ rs = 2502)) := by
  refine ⟨?_, ?_, ?_⟩
  · simp [sessionIteration, hh, hin, hout, hw]
  · simp [sessionIteration, hh, hin, hout, hw, SessOutcome.isClosed]
  · intro rs
    simp [ResultCode.IsBye, EppOkBye, EppCommandFailedBye, EppAuthFailedBye,
      EppSessionLimitExceededBye]
    tauto

/-- Witness for the amended C6 at the concrete Bye-answering session. -/
theorem session_send_success_loops_witness :
    (sessionIteration cfgBye (CreateErrorResponse EppOk "req")).2 =
      SessOutcome.looped (CreateErrorResponse EppOkBye "bye") ∧
    (sessionIteration cfgBye (CreateErrorResponse EppOk "req")).2.isClosed = false ∧
    (∀ rs : ResultCode,
      rs.IsBye = true ↔ (rs = 1500 ∨ rs = 2500 ∨ rs = 2501 ∨ rs = 2502)) :=
  session_send_success_loops cfgBye (CreateErrorResponse EppOk "req")
    (CreateErrorResponse EppOkBye "bye") rfl rfl rfl rfl

/-! ## Envelope encoder (src/read_write.go Encode / addNameSpaceAlias)
and the default router aliases (src/mux.go NewMux) -/

/-- Modelled from the spec: the `types` package (imported by
src/read_write.go and src/mux.go, not under src/) namespace constant
for `urn:ietf:params:xml:ns:domain-1.0 → domain`. -/
def NameSpaceDomain : String := "urn:ietf:params:xml:ns:domain-1.0"

/-- Modelled from the spec: the `types` package constant for
`urn:ietf:params:xml:ns:host-1.0 → host`. -/
def NameSpaceHost : String := "urn:ietf:params:xml:ns:host-1.0"

/-- Modelled from the spec: the `types` package constant for
`urn:ietf:params:xml:ns:contact-1.0 → contact`. -/
def NameSpaceContact : String := "urn:ietf:params:xml:ns:contact-1.0"

/-- Modelled from the spec: the `types` package constant for
`urn:ietf:params:xml:ns:secDNS-1.0 → sed`. -/
def NameSpaceDNSSEC10 : String := "urn:ietf:params:xml:ns:secDNS-1.0"

/-- Modelled from the spec: the `types` package constant for
`urn:ietf:params:xml:ns:secDNS-1.1 → sec`. -/
def NameSpaceDNSSEC11 : String := "urn:ietf:params:xml:ns:secDNS-1.1"

/-- Modelled from the spec: the `types` package constant for the
vendor-extension pair `iis-1.2 → iis`. -/
def NameSpaceIIS12 : String := "urn:se:iis:xml:epp:iis-1.2"

/-- The encoder's hardcoded alias map, local to `addNameSpaceAlias`
(src/read_write.go lines 161-168). -/
def namespaceAliases : List (String × String) :=
  [(NameSpaceDomain, "domain"), (NameSpaceHost, "host"), (NameSpaceContact, "contact"),
   (NameSpaceDNSSEC10, "sed"), (NameSpaceDNSSEC11, "sec"), (NameSpaceIIS12, "iis")]

/-- `NewMux` from src/mux.go lines 29-40: the router's default alias
map holds only the domain, host and contact pairs; the handler table
starts empty. -/
def NewMux : Mux :=
  { namespaceAliases :=
      [(NameSpaceDomain, "domain"), (NameSpaceHost, "host"), (NameSpaceContact, "contact")]
    handlers := [] }

/-- `xmltree.Element.SetAttr`: replace the value of an existing
attribute of that name, else append it. -/
def setAttr (attrs : List (String × String)) (key value : String) :
    List (String × String) :=
  match attrs with
  | [] => [(key, value)]
  | (k, v) :: rest => if k = key then (k, value) :: rest else (k, v) :: setAttr rest key value

/-- Result of `addNameSpaceAlias` on one element: `ok` the rewritten
element, `nilRes` the `return nil` taken for a non-empty namespace
that is not in the alias map, `panicked` a runtime panic raised while
processing the children. -/
inductive AliasResult where
  | ok (e : XElem)
  | nilRes
  | panicked

/-- Result of the children loop of `addNameSpaceAlias`: the Go loop
writes `*addNameSpaceAlias(&child, nsAdded)` back into the slice, so a
`nil` return from a child dereferences a nil pointer and panics. -/
inductive AliasListResult where
  | ok (es : XElems)
  | panicked

mutual

/-- `addNameSpaceAlias` from src/read_write.go lines 160-192: if the
element has a non-empty namespace it must be in the alias map (else
`return nil`); the first aliased element below the point where
`nsAdded` was false receives the `xmlns:<alias>` attribute; the local
name is rewritten to `alias:localName`; then the children are
processed with the updated flag. -/
def addNameSpaceAlias (e : XElem) (nsAdded : Bool) : AliasResult :=
  match e with
  | .mk sp lc attrs children =>
    if sp ≠ "" then
      match namespaceAliases.lookup sp with
      | none => AliasResult.nilRes
      | some al =>
        let attrs' := if nsAdded = false then setAttr attrs ("xmlns:" ++ al) sp else attrs
        match addNameSpaceAliasChildren children true with
        | AliasListResult.ok cs => AliasResult.ok (XElem.mk sp (al ++ ":" ++ lc) attrs' cs)
        | AliasListResult.panicked => AliasResult.panicked
    else
      match addNameSpaceAliasChildren children nsAdded with
      | AliasListResult.ok cs => AliasResult.ok (XElem.mk sp lc attrs cs)
      | AliasListResult.panicked => AliasResult.panicked

/-- The `for i, child := range document.Children` loop of
`addNameSpaceAlias`: a `nil` result for any child panics the caller. -/
def addNameSpaceAliasChildren (es : XElems) (nsAdded : Bool) : AliasListResult :=
  match es with
  | .nil => AliasListResult.ok XElems.nil
  | .cons c rest =>
    match addNameSpaceAlias c nsAdded with
    | AliasResult.ok c' =>
      match addNameSpaceAliasChildren rest nsAdded with
      | AliasListResult.ok rest' => AliasListResult.ok (XElems.cons c' rest')
      | AliasListResult.panicked => AliasListResult.panicked
    | AliasResult.nilRes => AliasListResult.panicked
    | AliasResult.panicked => AliasListResult.panicked

end

/-- The root replacement of `Encode` (src/read_write.go lines 138-146):
`document.StartElement` is overwritten with a fresh `epp` element
carrying the caller's attributes; the children are kept. -/
def replaceRoot (e : XElem) (rootAttrs : List (String × String)) : XElem :=
  XElem.mk "" "epp" rootAttrs e.children

/-- The tree-rewriting core of `Encode` (src/read_write.go lines 125-155)
between `xmltree.Parse` and `xmltree.MarshalIndent` (both external):
`addNameSpaceAlias(document, false)` is called with its return value
discarded — a `nil` return at the root leaves the document untouched,
a panic below the root aborts `Encode` (`none`) — and then the root is
replaced. -/
def Encode (doc : XElem) (rootAttrs : List (String × String)) : Option XElem :=
  match addNameSpaceAlias doc false with
  | AliasResult.panicked => none
  | AliasResult.ok d => some (replaceRoot d rootAttrs)
  | AliasResult.nilRes => some (replaceRoot doc rootAttrs)

/-- A document whose root (empty namespace) has one child in a
namespace that is not in the encoder's alias map. -/
def doc7 : XElem :=
  XElem.mk "" "response" []
    (XElems.cons (XElem.mk "urn:example:unknown-1.0" "data" [] XElems.nil) XElems.nil)

/-- C7.  An element below the root whose namespace URI is non-empty
but not in the alias map does NOT leave `Encode` successful:
`addNameSpaceAlias` returns `nil` for that child and the parent's loop
dereferences the nil pointer, so `Encode` panics and returns nothing.
Evaluated at the failing input `doc7`. -/
theorem encode_unknown_child_panics :
    namespaceAliases.lookup "urn:example:unknown-1.0" = none ∧
    Encode doc7 [] = none := ⟨rfl, rfl⟩

/-- C9 counterexample.  The router's default alias map (from `NewMux`)
has no entry for `urn:ietf:params:xml:ns:secDNS-1.0`, while the
encoder's map translates it to `sed`: the dispatch-path derivation
would fall back to the URI literal, so the two subsystems do not
consult the same alias map and the router does not translate the
secDNS-1.0 seed pair. -/
theorem alias_maps_differ_cex :
    NewMux.namespaceAliases.lookup NameSpaceDNSSEC10 = none ∧
    namespaceAliases.lookup NameSpaceDNSSEC10 = some "sed" := ⟨rfl, rfl⟩

/-- C9 (amended).  The encoder's hardcoded map carries all six seed
pairs; the router's default map built by `NewMux` is a separate map
carrying only the domain, host and contact pairs (it lacks
secDNS-1.0, secDNS-1.1 and iis-1.2); on the three shared pairs both
maps translate identically, and the router's dispatch-path derivation
uses its own map, as evaluated on a domain check command. -/
theorem alias_maps_seed :
    (namespaceAliases.lookup NameSpaceDomain = some "domain" ∧
      namespaceAliases.lookup NameSpaceHost = some "host" ∧
      namespaceAliases.lookup NameSpaceContact = some "contact" ∧
      namespaceAliases.lookup NameSpaceDNSSEC10 = some "sed" ∧
      namespaceAliases.lookup NameSpaceDNSSEC11 = some "sec" ∧
      namespaceAliases.lookup NameSpaceIIS12 = some "iis") ∧
    (NewMux.namespaceAliases.lookup NameSpaceDomain = some "domain" ∧
      NewMux.namespaceAliases.lookup NameSpaceHost = some "host" ∧
      NewMux.namespaceAliases.lookup NameSpaceContact = some "contact") ∧
    (NewMux.namespaceAliases.lookup NameSpaceDNSSEC10 = none ∧
      NewMux.namespaceAliases.lookup NameSpaceDNSSEC11 = none ∧
      NewMux.namespaceAliases.lookup NameSpaceIIS12 = none) ∧
    NewMux.buildPath
        (XElem.mk nsEPP "epp" []
          (XElems.cons
            (XElem.mk "" "command" []
              (XElems.cons
                (XElem.mk "" "check" []
                  (XElems.cons (XElem.mk NameSpaceDomain "check" [] XElems.nil) XElems.nil))
                XElems.nil))
            XElems.nil)) =
      PathResult.ok "command/check/domain" := by
  exact ⟨⟨rfl, rfl, rfl, rfl, rfl, rfl⟩, ⟨rfl, rfl, rfl⟩, ⟨rfl, rfl, rfl⟩, rfl⟩

/-- Whether one element's namespace is non-empty and in the encoder's
alias map (so that `addNameSpaceAlias` rewrites it). -/
def aliasedAt (e : XElem) : Bool :=
  decide (e.space ≠ "") && (namespaceAliases.lookup e.space).isSome

/-- Whether some proper ancestor of the position `p` (the root of the
tree included, the element at `p` excluded) is aliased: this is
exactly when the `nsAdded` flag has already been set on the way down
to `p`. -/
def aliasedAbove (e : XElem) : List Nat → Bool
  | [] => false
  | i :: p =>
    aliasedAt e ||
      (match e.children.getIdx i with
       | some c => aliasedAbove c p
       | none => false)

/-- A successful children pass transforms each child index-wise. -/
theorem addChildren_getIdx (b : Bool) (i : Nat) :
    ∀ (es es' : XElems),
      addNameSpaceAliasChildren es b = AliasListResult.ok es' →
      ∀ c, XElems.getIdx es i = some c →
      ∃ c', XElems.getIdx es' i = some c' ∧ addNameSpaceAlias c b = AliasResult.ok c' := by
  induction i with
  | zero =>
    intro es es' h c hg
    match es with
    | XElems.nil => simp [XElems.getIdx] at hg
    | XElems.cons e rest =>
      have hc : e = c := by simpa [XElems.getIdx] using hg
      subst hc
      revert h
      simp only [addNameSpaceAliasChildren]
      cases he : addNameSpaceAlias e b with
      | ok e1 =>
        cases hr : addNameSpaceAliasChildren rest b with
        | ok rest1 =>
          intro h
          cases h
          exact ⟨e1, rfl, rfl⟩
        | panicked => intro h; cases h
      | nilRes => intro h; cases h
      | panicked => intro h; cases h
  | succ n ih =>
    intro es es' h c hg
    match es with
    | XElems.nil => simp [XElems.getIdx] at hg
    | XElems.cons e rest =>
      have hg' : XElems.getIdx rest n = some c := hg
      revert h
      simp only [addNameSpaceAliasChildren]
      cases he : addNameSpaceAlias e b with
      | ok e1 =>
        cases hr : addNameSpaceAliasChildren rest b with
        | ok rest1 =>
          intro h
          cases h
          obtain ⟨c', h1, h2⟩ := ih rest rest1 hr c hg'
          exact ⟨c', h1, h2⟩
        | panicked => intro h; cases h
      | nilRes => intro h; cases h
      | panicked => intro h; cases h

/-- Position-wise description of a successful `addNameSpaceAlias`
walk started with flag `b`: every element keeps its namespace; an
element whose namespace is in the alias map has its local name
rewritten to `alias:localName` and receives the `xmlns:<alias>`
attribute exactly when the flag was still unset on the path down to it
(no aliased proper ancestor and `b = false`); an element with empty
namespace keeps name and attributes. -/
theorem addNSA_at (p : List Nat) :
    ∀ (e e' : XElem) (b : Bool),
      addNameSpaceAlias e b = AliasResult.ok e' →
      ∀ e0, getAt p e = some e0 →
      ∃ e0', getAt p e' = some e0' ∧
        e0'.space = e0.space ∧
        (∀ a, e0.space ≠ "" → namespaceAliases.lookup e0.space = some a →
          e0'.loc = a ++ ":" ++ e0.loc ∧
          e0'.attrs = (if b || aliasedAbove e p then e0.attrs
                       else setAttr e0.attrs ("xmlns:" ++ a) e0.space)) ∧
        (e0.space = "" → e0'.loc = e0.loc ∧ e0'.attrs = e0.attrs) := by
  induction p with
  | nil =>
    intro e e' b h e0 hg
    have he0 : e = e0 := by simpa [getAt] using hg
    subst he0
    match e with
    | XElem.mk sp lc attrs children =>
      revert h
      simp only [addNameSpaceAlias]
      by_cases hsp : sp ≠ ""
      · rw [if_pos hsp]
        cases hlk : namespaceAliases.lookup sp with
        | none => intro h; cases h
        | some al =>
          cases hch : addNameSpaceAliasChildren children true with
          | ok cs =>
            intro h
            cases h
            refine ⟨_, rfl, rfl, ?_, ?_⟩
            · intro a _ hlk'
              rw [XElem.space] at hlk'
              rw [hlk] at hlk'
              cases hlk'
              refine ⟨rfl, ?_⟩
              simp only [aliasedAbove, Bool.or_false, XElem.attrs, XElem.space]
              cases b with
              | false => simp
              | true => simp
            · intro hsp'
              rw [XElem.space] at hsp'
              exact absurd hsp' hsp
          | panicked => intro h; cases h
      · rw [if_neg hsp]
        cases hch : addNameSpaceAliasChildren children b with
        | ok cs =>
          intro h
          cases h
          refine ⟨_, rfl, rfl, ?_, ?_⟩
          · intro a hsp' _
            rw [XElem.space] at hsp'
            exact absurd hsp' hsp
          · intro _
            exact ⟨rfl, rfl⟩
        | panicked => intro h; cases h
  | cons i q ih =>
    intro e e' b h e0 hg
    match e with
    | XElem.mk sp lc attrs children =>
      simp only [getAt, XElem.children] at hg
      cases hgi : XElems.getIdx children i with
      | none => rw [hgi] at hg; cases hg
      | some c =>
        rw [hgi] at hg
        revert h
        simp only [addNameSpaceAlias]
        by_cases hsp : sp ≠ ""
        · rw [if_pos hsp]
          cases hlk : namespaceAliases.lookup sp with
          | none => intro h; cases h
          | some al =>
            cases hch : addNameSpaceAliasChildren children true with
            | ok cs =>
              intro h
              cases h
              obtain ⟨c', hc1, hc2⟩ := addChildren_getIdx true i children cs hch c hgi
              obtain ⟨e0', h1, h2, h3, h4⟩ := ih c c' true hc2 e0 hg
              refine ⟨e0', ?_, h2, ?_, h4⟩
              · simp only [getAt, XElem.children, hc1]
                exact h1
              · intro a ha hlka
                obtain ⟨hl, hat⟩ := h3 a ha hlka
                refine ⟨hl, ?_⟩
                rw [hat]
                have hab : aliasedAbove (XElem.mk sp lc attrs children) (i :: q) = true := by
                  simp only [aliasedAbove, aliasedAt, XElem.space, XElem.children, hgi]
                  simp [hsp, hlk]
                rw [hab]
                simp
            | panicked => intro h; cases h
        · rw [if_neg hsp]
          cases hch : addNameSpaceAliasChildren children b with
          | ok cs =>
            intro h
            cases h
            obtain ⟨c', hc1, hc2⟩ := addChildren_getIdx b i children cs hch c hgi
            obtain ⟨e0', h1, h2, h3, h4⟩ := ih c c' b hc2 e0 hg
            refine ⟨e0', ?_, h2, ?_, h4⟩
            · simp only [getAt, XElem.children, hc1]
              exact h1
            · intro a ha hlka
              obtain ⟨hl, hat⟩ := h3 a ha hlka
              refine ⟨hl, ?_⟩
              rw [hat]
              have hsp0 : sp = "" := by
                by_contra hc0
                exact hsp hc0
              have hab : aliasedAbove (XElem.mk sp lc attrs children) (i :: q) =
                  aliasedAbove c q := by
                simp only [aliasedAbove, aliasedAt, XElem.space, XElem.children, hgi, hsp0]
                simp
              rw [hab]
          | panicked => intro h; cases h

/-- C8 (amended).  For a document whose root element has an empty
namespace and on which the alias walk completes (no unknown-namespace
nil/panic), every element in the `Encode` output whose namespace URI
is in the alias map has its local name rewritten to
`alias:localName`, and the `xmlns:<alias>` declaration attribute is
added exactly on the first such element of each root-to-leaf path
(those with no aliased proper ancestor); on descendants of an aliased
element the attribute list is left unchanged — the declaration is
never repeated within the same path. -/
theorem encode_alias_first_on_path (doc d' : XElem) (rootAttrs : List (String × String))
    (_hroot : doc.space = "") (hok : addNameSpaceAlias doc false = AliasResult.ok d') :
    ∃ out, Encode doc rootAttrs = some out ∧
      ∀ (i : Nat) (p : List Nat) (e0 : XElem) (a : String),
        getAt (i :: p) doc = some e0 →
        e0.space ≠ "" → namespaceAliases.lookup e0.space = some a →
        ∃ e0', getAt (i :: p) out = some e0' ∧
          e0'.space = e0.space ∧
          e0'.loc = a ++ ":" ++ e0.loc ∧
          e0'.attrs = (if aliasedAbove doc (i :: p) then e0.attrs
                       else setAttr e0.attrs ("xmlns:" ++ a) e0.space) := by
  refine ⟨replaceRoot d' rootAttrs, by simp [Encode, hok], ?_⟩
  intro i p e0 a hget hsp hlk
  obtain ⟨e0', h1, h2, h3, _⟩ := addNSA_at (i :: p) doc d' false hok e0 hget
  obtain ⟨hloc, hattrs⟩ := h3 a hsp hlk
  refine ⟨e0', ?_, h2, hloc, ?_⟩
  · match d' with
    | XElem.mk dsp dlc dat dch =>
      simpa [getAt, replaceRoot, XElem.children] using h1
  · rw [hattrs]
    simp

/-- A concrete document for the C8 witness: empty-namespace root with
one domain-namespace child that itself has a domain-namespace child. -/
def docW8 : XElem :=
  XElem.mk "" "response" []
    (XElems.cons
      (XElem.mk NameSpaceDomain "create" []
        (XElems.cons (XElem.mk NameSpaceDomain "name" [] XElems.nil) XElems.nil))
      XElems.nil)

/-- The result of the alias walk on `docW8`: the top domain element is
renamed and receives the declaration, its child is renamed only. -/
def docW8out : XElem :=
  XElem.mk "" "response" []
    (XElems.cons
      (XElem.mk NameSpaceDomain "domain:create" [("xmlns:domain", NameSpaceDomain)]
        (XElems.cons (XElem.mk NameSpaceDomain "domain:name" [] XElems.nil) XElems.nil))
      XElems.nil)

/-- Witness for the amended C8 at `docW8`. -/
theorem encode_alias_first_on_path_witness :
    ∃ out, Encode docW8 [] = some out ∧
      ∀ (i : Nat) (p : List Nat) (e0 : XElem) (a : String),
        getAt (i :: p) docW8 = some e0 →
        e0.space ≠ "" → namespaceAliases.lookup e0.space = some a →
        ∃ e0', getAt (i :: p) out = some e0' ∧
          e0'.space = e0.space ∧
          e0'.loc = a ++ ":" ++ e0.loc ∧
          e0'.attrs = (if aliasedAbove docW8 (i :: p) then e0.attrs
                       else setAttr e0.attrs ("xmlns:" ++ a) e0.space) :=
  encode_alias_first_on_path docW8 docW8out [] rfl rfl

/-- A document whose root itself carries the domain namespace, with
one domain-namespace child. -/
def doc8cex : XElem :=
  XElem.mk NameSpaceDomain "create" []
    (XElems.cons (XElem.mk NameSpaceDomain "name" [] XElems.nil) XElems.nil)

/-- C8 counterexample.  When the original root itself is in the alias
map, `Encode` replaces the root (erasing the declaration placed
there), and the first in-map element of the remaining path — the
child, which has no aliased ancestor in the output — is rewritten to
`domain:name` but carries NO `xmlns:domain` declaration: the
declaration is not added on the first such element of that path, so
the claim fails at this input. -/
theorem encode_alias_missing_decl_cex :
    Encode doc8cex [] =
      some (XElem.mk "" "epp" []
        (XElems.cons (XElem.mk NameSpaceDomain "domain:name" [] XElems.nil) XElems.nil)) ∧
    getAt [0] (XElem.mk "" "epp" []
        (XElems.cons (XElem.mk NameSpaceDomain "domain:name" [] XElems.nil) XElems.nil)) =
      some (XElem.mk NameSpaceDomain "domain:name" [] XElems.nil) ∧
    namespaceAliases.lookup NameSpaceDomain = some "domain" ∧
    aliasedAbove (XElem.mk "" "epp" []
        (XElems.cons (XElem.mk NameSpaceDomain "domain:name" [] XElems.nil) XElems.nil))
      [0] = false ∧
    (XElem.mk NameSpaceDomain "domain:name" [] XElems.nil).attrs = [] :=
  ⟨rfl, rfl, rfl, rfl, rfl⟩
